import Mathlib

/-!
Shallow embedding of the mori-backend core (files cores.rs, filter.rs, db.rs,
lib.rs of the repository).  Machine integers are modelled as Nat with explicit
`% 2 ^ 32` where a cast truncates; fallible Rust code (panics, the `?`
operator) is modelled with Option / an explicit success flag.  External
collaborators (the Aleo ledger, the move-resolver HTTP service, record
decryption) are oracle parameters.
-/

/-- GameState::from_vec_i8 trit encoding: 0 maps to 0b00, -1 to 0b10, 1 to 0b01;
any other value panics (modelled as none). -/
def sq_of_trit (x : Int) : Option Nat :=
  if x = 0 then some 0
  else if x = -1 then some 2
  else if x = 1 then some 1
  else none

/-- GameState::from_vec_i8: for i in 0..64, result |= square(vec[i]) << (2*i).
An out-of-range index or an illegal trit is a panic (none).  The u128
accumulator never wraps: the highest bit written is bit 127. -/
def from_vec_i8 (v : List Int) : Option Nat :=
  (List.range 64).foldlM
    (fun acc i =>
      match v.get? i with
      | some x => (sq_of_trit x).map (fun s => acc ||| (s <<< (2 * i)))
      | none => none) 0

/-- GameState::to_vec_i8 square decoding: 0b00 maps to 0, 0b01 to -1, 0b10 to 1;
0b11 panics (none). -/
def trit_of_sq (s : Nat) : Option Int :=
  if s = 0 then some 0
  else if s = 1 then some (-1)
  else if s = 2 then some 1
  else none

/-- GameState::to_vec_i8: for i in 0..64, push the trit of ((raw >> (2*i)) & 0b11). -/
def to_vec_i8 (g : Nat) : Option (List Int) :=
  (List.range 64).mapM (fun i => trit_of_sq ((g >>> (2 * i)) &&& 3))

/-- Vote (cores.rs): sender address, node id (u128), move (u8). -/
structure Vote where
  sender : String
  node_id : Nat
  mov : Nat
  deriving DecidableEq

/-- GameNode (cores.rs).  node_type 0 is a leaf, 1 internal; game_status 0 is
ongoing; valid_cnt is the expected number of voters (u32). -/
structure GameNode where
  node_id : Nat
  state : Nat
  parent_id : Nat
  node_type : Nat
  game_status : Nat
  valid_cnt : Nat
  valid_movs : List Nat
  votes : List Vote
  deriving DecidableEq

/-- GameNode::check_and_add_vote.  If the move is not contained in valid_movs
the function returns false with the node untouched.  Otherwise
`vote_len = (votes.len() + 1) as u32` (hence the `% 2 ^ 32`); the vote is
pushed when `vote_len <= valid_cnt / 2` (u32 integer division), and the
returned flag is `vote_len >= valid_cnt / 2 && game_status == 0 &&
node_type == 0`. -/
def check_and_add_vote (n : GameNode) (v : Vote) : GameNode × Bool :=
  if v.mov ∈ n.valid_movs then
    let vote_len := (n.votes.length + 1) % 2 ^ 32
    let n' := if vote_len ≤ n.valid_cnt / 2 then { n with votes := n.votes ++ [v] } else n
    (n', decide (n.valid_cnt / 2 ≤ vote_len) && decide (n.game_status = 0) &&
      decide (n.node_type = 0))
  else (n, false)

/-- A ledger transition (snarkvm), restricted to the fields the filter and the
sync dispatch inspect, plus an id to tell transitions apart. -/
structure Transition where
  program_id : String
  function_name : String
  tid : Nat
  deriving DecidableEq

/-- A confirmed transaction of a block: its acceptance status and its
transitions in order. -/
structure ConfirmedTx where
  accepted : Bool
  transitions : List Transition
  deriving DecidableEq

/-- A record created in a block, as seen by Mori::handle_credits after the
opaque cryptography is abstracted: its serial number, whether is_owner
succeeds for this identity, whether serial-number derivation and decryption
succeed (the two `?` operators), whether microcredits() returns Ok, and the
microcredits amount. -/
structure NewRecord where
  serial : String
  owned : Bool
  decrypt_ok : Bool
  credits_ok : Bool
  microcredits : Nat
  deriving DecidableEq

/-- A ledger block, restricted to what the core reads: confirmed transactions,
the serial numbers the block reports spent, and the records it creates. -/
structure Block where
  transactions : List ConfirmedTx
  serial_numbers : List String
  records : List NewRecord
  deriving DecidableEq

/-- TransitionFilter (filter.rs): two allow-lists, built incrementally. -/
structure TransitionFilter where
  program_ids : List String
  function_names : List String
  deriving DecidableEq

/-- TransitionFilter::new. -/
def TransitionFilter.new : TransitionFilter := ⟨[], []⟩

/-- TransitionFilter::add_program. -/
def TransitionFilter.add_program (f : TransitionFilter) (p : String) : TransitionFilter :=
  { f with program_ids := f.program_ids ++ [p] }

/-- TransitionFilter::add_function. -/
def TransitionFilter.add_function (f : TransitionFilter) (s : String) : TransitionFilter :=
  { f with function_names := f.function_names ++ [s] }

/-- TransitionFilter::filter_block: first the transitions of accepted
transactions in block order, then those whose program id and function name
are both contained in the allow-lists. -/
def filter_block (f : TransitionFilter) (b : Block) : List Transition :=
  let ts := (b.transactions.filter (fun tx => tx.accepted)).flatMap
    (fun tx => tx.transitions)
  ts.filter (fun t =>
    f.program_ids.contains t.program_id && f.function_names.contains t.function_name)

/-- Transition Filter contract as the specification words it: the ordered list
of transitions, preserving block order, whose owning transaction is accepted,
whose program identifier is in the program allow-set and whose function name
is in the function allow-set.  Written from the spec to be compared with
filter_block. -/
def filter_block_spec (f : TransitionFilter) (b : Block) : List Transition :=
  b.transactions.flatMap (fun tx =>
    if tx.accepted then
      tx.transitions.filter (fun t =>
        f.program_ids.contains t.program_id &&
          f.function_names.contains t.function_name)
    else [])

/-- The filter Mori::new configures: TransitionFilter::new().add_program("mori.aleo"),
with no add_function call. -/
def mori_filter : TransitionFilter := TransitionFilter.new.add_program ("mori.aleo")

/-- The unspent_records DBMap, keyed by serial-number string.  RocksDB iterates
keys in byte order, so the model keeps the association list sorted by key. -/
abbrev Pool := List (String × NewRecord)

/-- DBMap::remove on the pool (RocksDB delete of one key). -/
def pool_remove (p : Pool) (k : String) : Pool := p.filter (fun e => !(e.1 == k))

/-- DBMap::insert on the pool (RocksDB put): ordered insertion by key,
overwriting an existing entry with the same key. -/
def pool_insert : Pool → String → NewRecord → Pool
  | [], k, v => [(k, v)]
  | e :: p, k, v =>
    if k < e.1 then (k, v) :: e :: p
    else if k = e.1 then (k, v) :: p
    else e :: pool_insert p k v

/-- Keys of the pool, in store order. -/
def pool_keys (p : Pool) : List String := p.map Prod.fst

/-- DBMap::pop_front: the entry with the smallest key, which in the sorted
model is the head (the source also removes it; the returned value is what the
claims are about). -/
def pop_front (p : Pool) : Option (String × NewRecord) := p.head?

/-- Record-creation half of Mori::handle_credits: records failing is_owner are
skipped; a serial-number/decryption failure propagates through `?`, aborting
the remaining records of the block while keeping the inserts already done;
records whose microcredits() is Ok and exceeds 40000 are inserted keyed by
serial number, anything else is skipped. -/
def handle_records : Pool → List NewRecord → Pool × Bool
  | p, [] => (p, true)
  | p, r :: rs =>
    if !r.owned then handle_records p rs
    else if !r.decrypt_ok then (p, false)
    else if r.credits_ok ∧ 40000 < r.microcredits then
      handle_records (pool_insert p r.serial r) rs
    else handle_records p rs

/-- Mori::handle_credits: first remove every serial number the block reports
spent (no error if absent), then process the block's newly created records. -/
def handle_credits (p : Pool) (b : Block) : Pool × Bool :=
  handle_records (b.serial_numbers.foldl pool_remove p) b.records

/-- The function names Mori::sync dispatches to a handler; every other name
falls through silently. -/
def is_handled (fname : String) : Bool :=
  fname == "vote" || fname == "move_to_next" || fname == "open_game"

/-- The ts_handler closure of Mori::sync: dispatch each transition by function
name; a handler error (h t = false) propagates via `?`, so the remaining
transitions of the batch are not reached.  Returns the transitions whose
handler was invoked, in order, and whether all of them succeeded. -/
def ts_handler_run (h : Transition → Bool) : List Transition → List Transition × Bool
  | [] => ([], true)
  | t :: ts =>
    if is_handled t.function_name then
      if h t then
        let r := ts_handler_run h ts
        (t :: r.1, r.2)
      else ([t], false)
    else ts_handler_run h ts

/-- One batch iteration of Mori::sync: over the fetched blocks, run
handle_credits (its error is only logged) and collect the filtered
transitions; then run the ts_handler on the collected batch (its error is
only logged as well). -/
def run_batch (f : TransitionFilter) (h : Transition → Bool) (p : Pool)
    (blocks : List Block) : Pool × List Transition × Bool :=
  let acc := blocks.foldl
    (fun acc b => ((handle_credits acc.1 b).1, acc.2 ++ filter_block f b)) (p, [])
  let r := ts_handler_run h acc.2
  (acc.1, r.1, r.2)

/-- The batch start heights of Mori::sync: (cur..latest).step_by(45). -/
def batch_starts (cur latest : Nat) : List Nat :=
  List.range' cur ((latest - cur + 44) / 45) 45

/-- The ledger collaborator: its latest height and the block at each height
(get_blocks start end returns the blocks of [start, end)). -/
structure Ledger where
  latest : Nat
  block_at : Nat → Block

/-- The persisted state Mori::sync touches: the network_height entry for this
identity's network key (none when the row is absent; read with unwrap_or(0))
and the unspent_records pool. -/
structure SyncState where
  height : Option Nat
  pool : Pool
  deriving DecidableEq

/-- Mori::sync: read cur (unwrap_or 0) and the ledger's latest height, process
[cur, latest) in batches of 45 blocks, and afterwards persist the checkpoint
to latest unconditionally.  Returns the new state together with the
transitions dispatched to a handler, in order. -/
def sync (f : TransitionFilter) (h : Transition → Bool) (st : SyncState) (L : Ledger) :
    SyncState × List Transition :=
  let cur := st.height.getD 0
  let acc := (batch_starts cur L.latest).foldl
    (fun acc start =>
      let endh := min (start + 45) L.latest
      let blocks := (List.range' start (endh - start)).map L.block_at
      let r := run_batch f h acc.1 blocks
      (r.1, acc.2 ++ r.2.1))
    (st.pool, [])
  ({ height := some L.latest, pool := acc.1 }, acc.2)

/-- Mori::set_cur_height: read the stored height (unwrap_or 0) and write the
requested height only when it is strictly greater. -/
def set_cur_height (stored : Option Nat) (height : Nat) : Option Nat :=
  if stored.getD 0 < height then some height else stored

/-- A move-resolver node descriptor (RestResponse in cores.rs). -/
structure RestResponse where
  node_id : Nat
  parent_id : Option Nat
  node_type : Nat
  state : List Int
  valid_moves : List Nat
  game_status : Int
  deriving DecidableEq

/-- RestResponse::is_pass: the reserved pass sentinel validMoves == [64]. -/
def RestResponse.is_pass (r : RestResponse) : Bool := r.valid_moves == [64]

/-- Execution requests consumed by Mori::execute_program. -/
inductive Execution where
  | MoveToNext (mov : RestResponse)
  | OpenGame
  deriving DecidableEq

/-- Mori::move_to_next_remote: posts the request built from the node to the
move resolver (an oracle here) and returns the parsed response list
unchanged — the source only carries a "TODO: handle mov 64" comment, no pass
resolution is performed on the response. -/
def move_to_next_remote (resolver : GameNode → List RestResponse) (node : GameNode) :
    List RestResponse :=
  resolver node

/-- The vote path of Mori::handle_vote once the referenced node was found and
the vote record decrypted: run check_and_add_vote on the node; when it reports
decided, every descriptor returned by move_to_next_remote is sent to the
execution channel as Execution::MoveToNext.  Returns the updated node (which
the source re-inserts into the store) and the enqueued requests in order. -/
def handle_vote (resolver : GameNode → List RestResponse) (node : GameNode) (v : Vote) :
    GameNode × List Execution :=
  let r := check_and_add_vote node v
  if r.2 then (r.1, (move_to_next_remote resolver r.1).map Execution.MoveToNext)
  else (r.1, [])

/-- An OPEN/LEAF node with four expected voters and one legal move. -/
def c1_node : GameNode := ⟨1, 0, 0, 0, 0, 4, [5], []⟩

/-- First voter's vote for move 5. -/
def c1_v1 : Vote := ⟨"a", 1, 5⟩

/-- Second voter's vote for move 5. -/
def c1_v2 : Vote := ⟨"b", 1, 5⟩

/-- Third voter's vote for move 5, arriving after the threshold was met. -/
def c1_v3 : Vote := ⟨"c", 1, 5⟩

/-- A legal length-64 trit sequence: player-A on square 0, the rest empty. -/
def c2_input : List Int := -1 :: List.replicate 63 0

/-- A node that is not OPEN/LEAF (node_type = 1, internal). -/
def c4_node : GameNode := ⟨1, 0, 0, 1, 0, 4, [5], []⟩

/-- A vote whose move is legal for c4_node. -/
def c4_vote : Vote := ⟨"a", 1, 5⟩

/-- An OPEN/LEAF node whose only legal move is 5. -/
def c5_node : GameNode := ⟨1, 0, 0, 0, 0, 4, [5], []⟩

/-- A vote for move 7, which is not a legal move of c5_node. -/
def c5_vote : Vote := ⟨"a", 1, 7⟩

/-- A block with no transactions, spent serials, or created records. -/
def empty_block : Block := ⟨[], [], []⟩

/-- A handler oracle that always succeeds. -/
def h_ok : Transition → Bool := fun _ => true

/-- Stored checkpoint 10, empty fee pool. -/
def c6_state : SyncState := ⟨some 10, []⟩

/-- A ledger whose latest height is 5, below the stored checkpoint of c6_state. -/
def c6_ledger : Ledger := ⟨5, fun _ => empty_block⟩

/-- Stored checkpoint 5, equal to c6_ledger's latest height. -/
def c6w_state : SyncState := ⟨some 5, []⟩

/-- A vote transition of mori.aleo. -/
def c7_t1 : Transition := ⟨"mori.aleo", "vote", 1⟩

/-- A second vote transition of mori.aleo, after c7_t1 in the same block. -/
def c7_t2 : Transition := ⟨"mori.aleo", "vote", 2⟩

/-- A filter admitting mori.aleo vote transitions. -/
def c7_filter : TransitionFilter :=
  (TransitionFilter.new.add_program ("mori.aleo")).add_function ("vote")

/-- One block holding one accepted transaction with the two vote transitions. -/
def c7_block : Block := ⟨[⟨true, [c7_t1, c7_t2]⟩], [], []⟩

/-- A one-block ledger serving c7_block. -/
def c7_ledger : Ledger := ⟨1, fun _ => c7_block⟩

/-- A handler oracle that fails exactly on transition id 1 (c7_t1). -/
def c7_handler : Transition → Bool := fun t => !(t.tid == 1)

/-- Fresh state: no checkpoint row, empty fee pool. -/
def c7_state : SyncState := ⟨none, []⟩

/-- An owned, decryptable record above the fee floor, serial number s1. -/
def c9_rec : NewRecord := ⟨"s1", true, true, true, 50000⟩

/-- A block that reports serial s1 spent and creates the record with serial s1
in the same block. -/
def c9_block : Block := ⟨[], ["s1"], [c9_rec]⟩

/-- An owned, decryptable record above the fee floor, serial number s2. -/
def c9w_rec : NewRecord := ⟨"s2", true, true, true, 50000⟩

/-- A block that spends serial s1 and creates only the unrelated serial s2. -/
def c9w_block : Block := ⟨[], ["s1"], [c9w_rec]⟩

/-- A pool already holding the record with serial s1. -/
def c9w_pool : Pool := [⟨"s1", c9_rec⟩]

/-- A move-resolver descriptor flagged pass: validMoves == [64]. -/
def c10_pass : RestResponse := ⟨2, some 1, 0, [], [64], 0⟩

/-- An OPEN/LEAF node with two expected voters, so one accepted vote decides. -/
def c10_node : GameNode := ⟨1, 0, 0, 0, 0, 2, [5], []⟩

/-- The deciding vote for c10_node. -/
def c10_vote : Vote := ⟨"a", 1, 5⟩

/-- C1 counterexample: with expected_voters = 4 on an OPEN/LEAF node, the second
accepted vote returns decided, and a further valid vote still returns decided —
the claim that the decision fires at most once per node is false on
check_and_add_vote. -/
theorem c1_counterexample :
    ((check_and_add_vote c1_node c1_v1).2 = false) ∧
    ((check_and_add_vote c1_node c1_v1).1.votes.length = 1) ∧
    ((check_and_add_vote (check_and_add_vote c1_node c1_v1).1 c1_v2).2 = true) ∧
    ((check_and_add_vote (check_and_add_vote (check_and_add_vote c1_node
        c1_v1).1 c1_v2).1 c1_v3).2 = true) := by decide

/-- C1 amended: check_and_add_vote returns decided exactly when the vote's move
is legal, the node is OPEN/LEAF, and votes.len() + 1 (as u32) has reached
valid_cnt / 2 under integer division — so it keeps returning decided on every
valid vote at or past the threshold, not only the first time. -/
theorem c1_amended (n : GameNode) (v : Vote) :
    (check_and_add_vote n v).2 = true ↔
      v.mov ∈ n.valid_movs ∧ n.valid_cnt / 2 ≤ (n.votes.length + 1) % 2 ^ 32 ∧
        n.game_status = 0 ∧ n.node_type = 0 := by
  unfold check_and_add_vote
  by_cases h : v.mov ∈ n.valid_movs <;> simp [h, and_assoc]

/-- C2: the pack/unpack round-trip is not the identity: packing player-A on
square 0 (trit -1) and unpacking yields trit 1 there, because from_vec_i8 maps
-1 to 0b10 while to_vec_i8 maps 0b10 back to 1.  This also falsifies the
repository's own test test_game_state_from_vec_i8. -/
theorem c2_roundtrip_negates :
    (from_vec_i8 c2_input).bind to_vec_i8 = some ((1 : Int) :: List.replicate 63 0) ∧
    ((1 : Int) :: List.replicate 63 0) ≠ c2_input := by decide

/-- C4 counterexample: on a node that is not OPEN/LEAF (node_type = 1),
check_and_add_vote does return not-decided, but the node is not left
unchanged — the vote is still appended, because the push happens before the
node_type/game_status conditions are consulted. -/
theorem c4_counterexample :
    c4_node.node_type ≠ 0 ∧
    (check_and_add_vote c4_node c4_vote).2 = false ∧
    (check_and_add_vote c4_node c4_vote).1 ≠ c4_node ∧
    (check_and_add_vote c4_node c4_vote).1.votes.length = 1 := by decide

/-- C4 amended: on a node that is not OPEN/LEAF, check_and_add_vote returns
not-decided, but the node is unchanged only when the move is illegal or the
tally cap is already reached; a legal move under the cap is still appended. -/
theorem c4_amended (n : GameNode) (v : Vote)
    (h : n.node_type ≠ 0 ∨ n.game_status ≠ 0) :
    (check_and_add_vote n v).2 = false ∧
    (check_and_add_vote n v).1 =
      (if v.mov ∈ n.valid_movs ∧ (n.votes.length + 1) % 2 ^ 32 ≤ n.valid_cnt / 2
        then { n with votes := n.votes ++ [v] } else n) := by
  unfold check_and_add_vote
  by_cases hm : v.mov ∈ n.valid_movs
  · rcases h with h | h <;> simp [hm, h]
  · simp [hm]

/-- C4 amended witness at the concrete internal node c4_node. -/
theorem c4_amended_witness :
    (check_and_add_vote c4_node c4_vote).2 = false ∧
    (check_and_add_vote c4_node c4_vote).1 =
      { c4_node with votes := c4_node.votes ++ [c4_vote] } := by
  have h := c4_amended c4_node c4_vote (Or.inl (by decide))
  exact ⟨h.1, h.2.trans (by decide)⟩

/-- C5: a vote whose move is not contained in valid_movs returns not-decided
and leaves the tally length unchanged (the node is returned untouched). -/
theorem c5_invalid_mov (n : GameNode) (v : Vote) (h : v.mov ∉ n.valid_movs) :
    (check_and_add_vote n v).2 = false ∧
    (check_and_add_vote n v).1.votes.length = n.votes.length := by
  unfold check_and_add_vote
  simp [h]

/-- C5 witness: the vote for move 7 against a node whose only legal move is 5. -/
theorem c5_witness :
    (check_and_add_vote c5_node c5_vote).2 = false ∧
    (check_and_add_vote c5_node c5_vote).1.votes.length = c5_node.votes.length :=
  c5_invalid_mov c5_node c5_vote (by decide)

/-- Helper: filtering the flattened transitions of the accepted transactions
equals per-transaction filtering with rejected transactions dropped. -/
theorem filter_accepted_flatMap (q : Transition → Bool) :
    ∀ l : List ConfirmedTx,
      ((l.filter (fun tx => tx.accepted)).flatMap (fun tx => tx.transitions)).filter q =
        l.flatMap (fun tx => if tx.accepted then tx.transitions.filter q else [])
  | [] => rfl
  | tx :: l => by
    cases htx : tx.accepted <;>
      simp [htx, List.filter_append, filter_accepted_flatMap q l]

/-- C8: filter_block returns exactly the transitions, in block order, whose
owning transaction is accepted and whose program id and function name are in
the configured allow-lists, as the specification-side filter_block_spec
states; the function is pure. -/
theorem c8_filter_block (f : TransitionFilter) (b : Block) :
    filter_block f b = filter_block_spec f b := by
  unfold filter_block filter_block_spec
  exact filter_accepted_flatMap _ b.transactions

/-- Helper: the construction-time filter of Mori::new admits no transition,
since its function allow-list is empty. -/
theorem mori_filter_block_nil (b : Block) : filter_block mori_filter b = [] := by
  unfold filter_block mori_filter TransitionFilter.new TransitionFilter.add_program
  simp

/-- Helper: a left fold whose step never changes the second component leaves
the second component of the initial accumulator intact. -/
theorem foldl_snd_const {α β γ : Type} (f : γ × α → β → γ × α)
    (hf : ∀ acc b, (f acc b).2 = acc.2) :
    ∀ (l : List β) (init : γ × α), (l.foldl f init).2 = init.2
  | [], _ => rfl
  | b :: l, init => by
    rw [List.foldl_cons, foldl_snd_const f hf l (f init b), hf]

/-- Helper: with the construction-time filter, a batch dispatches nothing. -/
theorem run_batch_mori_processed (h : Transition → Bool) (p : Pool) (blocks : List Block) :
    (run_batch mori_filter h p blocks).2.1 = [] := by
  show (ts_handler_run h
      ((blocks.foldl
        (fun acc b => ((handle_credits acc.1 b).1, acc.2 ++ filter_block mori_filter b))
        (p, [])).2)).1 = []
  rw [foldl_snd_const _ (fun acc b => by simp [mori_filter_block_nil]) blocks (p, [])]
  rfl

/-- C3: the filter configured by Mori::new adds the program mori.aleo but no
function name, so its function allow-list is empty, filter_block returns the
empty list on every block, and sync never dispatches any transition to the
vote, move-committed, or open-game handler. -/
theorem c3_mori_filter_inert :
    mori_filter.function_names = [] ∧
    (∀ b, filter_block mori_filter b = []) ∧
    ∀ (h : Transition → Bool) (st : SyncState) (L : Ledger),
      (sync mori_filter h st L).2 = [] := by
  refine ⟨rfl, mori_filter_block_nil, fun h st L => ?_⟩
  show ((batch_starts (st.height.getD 0) L.latest).foldl
      (fun acc start =>
        let endh := min (start + 45) L.latest
        let blocks := (List.range' start (endh - start)).map L.block_at
        let r := run_batch mori_filter h acc.1 blocks
        (r.1, acc.2 ++ r.2.1))
      (st.pool, [])).2 = []
  exact foldl_snd_const _
    (fun acc start => by simp [run_batch_mori_processed]) _ (st.pool, [])

/-- Helper: sync persists the checkpoint to the ledger's latest height
unconditionally, whatever the filter, handlers, state, and ledger are. -/
theorem sync_height_always (f : TransitionFilter) (h : Transition → Bool)
    (st : SyncState) (L : Ledger) :
    (sync f h st L).1.height = some L.latest := rfl

/-- Helper: when the stored checkpoint is at or above the ledger's latest
height, the batch list is empty. -/
theorem batch_starts_nil (cur latest : Nat) (hle : latest ≤ cur) :
    batch_starts cur latest = [] := by
  unfold batch_starts
  rw [Nat.sub_eq_zero_of_le hle]
  rfl

/-- C6 counterexample: with a stored checkpoint of 10 and a ledger whose
latest height is 5, sync overwrites the checkpoint with 5, lowering it —
sync is not a no-op when the stored height exceeds the ledger height. -/
theorem c6_counterexample :
    c6_state.height = some 10 ∧ c6_ledger.latest = 5 ∧ (5 : Nat) < 10 ∧
    (sync mori_filter h_ok c6_state c6_ledger).1.height = some 5 := by decide

/-- C6 amended: set_cur_height is monotone (it writes only when the requested
height strictly exceeds the stored one), and sync processes no blocks when the
stored height is at or above the ledger height — but sync persists
checkpoint = latest unconditionally, so it lowers the stored value whenever
the stored height exceeds the ledger's. -/
theorem c6_amended_thm :
    (∀ (stored : Option Nat) (ht : Nat),
        stored.getD 0 ≤ (set_cur_height stored ht).getD 0 ∧
        (set_cur_height stored ht ≠ stored → stored.getD 0 < ht)) ∧
    (∀ (f : TransitionFilter) (h : Transition → Bool) (st : SyncState) (L : Ledger),
        (sync f h st L).1.height = some L.latest) ∧
    (∀ (f : TransitionFilter) (h : Transition → Bool) (st : SyncState) (L : Ledger),
        L.latest ≤ st.height.getD 0 →
        (sync f h st L).2 = [] ∧ (sync f h st L).1.pool = st.pool) := by
  refine ⟨fun stored ht => ?_, sync_height_always, fun f h st L hle => ?_⟩
  · unfold set_cur_height
    split
    · exact ⟨Nat.le_of_lt (by assumption), fun _ => by assumption⟩
    · exact ⟨Nat.le_refl _, fun hne => absurd rfl hne⟩
  · have hb : batch_starts (st.height.getD 0) L.latest = [] := batch_starts_nil _ _ hle
    constructor
    · show ((batch_starts (st.height.getD 0) L.latest).foldl
          (fun acc start =>
            let endh := min (start + 45) L.latest
            let blocks := (List.range' start (endh - start)).map L.block_at
            let r := run_batch f h acc.1 blocks
            (r.1, acc.2 ++ r.2.1))
          (st.pool, [])).2 = []
      rw [hb]
      rfl
    · show ((batch_starts (st.height.getD 0) L.latest).foldl
          (fun acc start =>
            let endh := min (start + 45) L.latest
            let blocks := (List.range' start (endh - start)).map L.block_at
            let r := run_batch f h acc.1 blocks
            (r.1, acc.2 ++ r.2.1))
          (st.pool, [])).1 = st.pool
      rw [hb]
      rfl

/-- C6 amended witness: at stored height 5 and ledger height 5 the batch loop
is empty and the pool untouched; set_cur_height at (5, 3) is monotone. -/
theorem c6_amended_witness :
    ((set_cur_height (some 5) 3 ≠ some 5 → (5 : Nat) < 3)) ∧
    ((sync mori_filter h_ok c6w_state c6_ledger).2 = [] ∧
     (sync mori_filter h_ok c6w_state c6_ledger).1.pool = c6w_state.pool) :=
  ⟨(c6_amended_thm.1 (some 5) 3).2,
   c6_amended_thm.2.2 mori_filter h_ok c6w_state c6_ledger (by decide)⟩

/-- C7 counterexample: a batch holds the two vote transitions c7_t1 and c7_t2;
the handler fails on c7_t1, and c7_t2 — although selected by the filter — is
never dispatched: the error aborts the remainder of the batch. -/
theorem c7_counterexample :
    filter_block c7_filter c7_block = [c7_t1, c7_t2] ∧
    (sync c7_filter c7_handler c7_state c7_ledger).2 = [c7_t1] := by decide

/-- C7 amended: a handler error stops the remaining transitions of the same
batch from being processed (the `?` propagates out of the for loop), but the
overall sync call is not aborted: the batch error is only logged, later
batches still run, and the checkpoint is persisted to the latest height. -/
theorem c7_amended_thm :
    (∀ (h : Transition → Bool) (t : Transition) (ts : List Transition),
        is_handled t.function_name = true → h t = false →
        ts_handler_run h (t :: ts) = ([t], false)) ∧
    (∀ (f : TransitionFilter) (h : Transition → Bool) (st : SyncState) (L : Ledger),
        (sync f h st L).1.height = some L.latest) := by
  refine ⟨fun h t ts h1 h2 => ?_, sync_height_always⟩
  unfold ts_handler_run
  rw [h1, h2]
  rfl

/-- C7 amended witness: the failing handler on c7_t1 truncates the batch to
[c7_t1], and the sync over c7_ledger still persists checkpoint 1. -/
theorem c7_amended_witness :
    ts_handler_run c7_handler (c7_t1 :: [c7_t2]) = ([c7_t1], false) ∧
    (sync c7_filter c7_handler c7_state c7_ledger).1.height = some 1 :=
  ⟨c7_amended_thm.1 c7_handler c7_t1 [c7_t2] (by decide) (by decide),
   c7_amended_thm.2 c7_filter c7_handler c7_state c7_ledger⟩

/-- Helper: removing a key from the pool removes it. -/
theorem pool_remove_self (p : Pool) (k : String) : k ∉ pool_keys (pool_remove p k) := by
  intro hk
  rcases List.mem_map.mp hk with ⟨e, he, hek⟩
  have hpass := (List.mem_filter.mp he).2
  simp [hek] at hpass

/-- Helper: removing one key introduces no other key. -/
theorem pool_remove_subset (p : Pool) (k k0 : String) (h : k0 ∉ pool_keys p) :
    k0 ∉ pool_keys (pool_remove p k) := by
  intro hk
  apply h
  rcases List.mem_map.mp hk with ⟨e, he, hek⟩
  exact List.mem_map.mpr ⟨e, (List.mem_filter.mp he).1, hek⟩

/-- Helper: the serial-removal fold preserves the absence of a key. -/
theorem foldl_remove_preserve :
    ∀ (l : List String) (p : Pool) (k : String), k ∉ pool_keys p →
      k ∉ pool_keys (l.foldl pool_remove p)
  | [], _, _, h => h
  | s :: l, p, k, h => foldl_remove_preserve l _ k (pool_remove_subset p s k h)

/-- Helper: after folding removals over a serial list, every listed serial is
absent from the pool. -/
theorem foldl_remove_mem :
    ∀ (l : List String) (p : Pool) (k : String), k ∈ l →
      k ∉ pool_keys (l.foldl pool_remove p)
  | [], _, _, h => absurd h (List.not_mem_nil _)
  | s :: l, p, k, h => by
    rcases List.mem_cons.mp h with h | h
    · subst h
      exact foldl_remove_preserve l _ k (pool_remove_self p k)
    · exact foldl_remove_mem l _ k h

/-- Helper: a key of the pool after an insertion is the inserted key or an
original key. -/
theorem pool_keys_cons (e : String × NewRecord) (l : Pool) :
    pool_keys (e :: l) = e.1 :: pool_keys l := rfl

theorem pool_insert_keys_subset :
    ∀ (p : Pool) (k : String) (v : NewRecord) (x : String),
      x ∈ pool_keys (pool_insert p k v) → x = k ∨ x ∈ pool_keys p
  | [], k, v, x, h => by
    simp [pool_insert, pool_keys] at h
    exact Or.inl h
  | e :: p, k, v, x, h => by
    unfold pool_insert at h
    split at h
    · rw [pool_keys_cons, pool_keys_cons] at h
      rcases List.mem_cons.mp h with h | h
      · exact Or.inl h
      · exact Or.inr h
    · split at h
      · rw [pool_keys_cons] at h
        rcases List.mem_cons.mp h with h | h
        · exact Or.inl h
        · exact Or.inr (List.mem_cons_of_mem _ h)
      · rw [pool_keys_cons] at h
        rcases List.mem_cons.mp h with h | h
        · exact Or.inr (List.mem_cons.mpr (Or.inl h))
        · rcases pool_insert_keys_subset p k v x h with h | h
          · exact Or.inl h
          · exact Or.inr (List.mem_cons_of_mem _ h)

/-- Helper: processing a block's created records never introduces a key that
differs from every created record's serial number. -/
theorem handle_records_not_mem :
    ∀ (rs : List NewRecord) (p : Pool) (k0 : String),
      (∀ r ∈ rs, r.serial ≠ k0) → k0 ∉ pool_keys p →
      k0 ∉ pool_keys (handle_records p rs).1
  | [], _, _, _, h => h
  | r :: rs, p, k0, hs, h => by
    have hr : r.serial ≠ k0 := hs r (List.mem_cons_self r rs)
    have hrs : ∀ x ∈ rs, x.serial ≠ k0 := fun x hx => hs x (List.mem_cons_of_mem r hx)
    unfold handle_records
    split
    · exact handle_records_not_mem rs p k0 hrs h
    · split
      · exact h
      · split
        · exact handle_records_not_mem rs _ k0 hrs
            (fun hk => (pool_insert_keys_subset p r.serial r k0 hk).elim
              (fun e => hr e.symm) h)
        · exact handle_records_not_mem rs p k0 hrs h

/-- C9 counterexample: block c9_block reports serial s1 spent and creates a
record carrying the same serial s1; handle_credits removes the spent serials
before inserting the block's created records, so the record survives and
pop_front returns the spent serial s1 right after the block is processed. -/
theorem c9_counterexample :
    "s1" ∈ c9_block.serial_numbers ∧
    pop_front (handle_credits [] c9_block).1 = some ("s1", c9_rec) := by decide

/-- C9 amended: a serial number observed as spent in block B is absent from
the pool after B is processed — and hence never returned by pop_front —
provided no record created in the same block B carries that serial number; a
record created and spent in the same block is re-inserted after the removal
pass and can still be returned. -/
theorem c9_amended (p : Pool) (b : Block) (sn : String)
    (h1 : sn ∈ b.serial_numbers) (h2 : ∀ r ∈ b.records, r.serial ≠ sn) :
    sn ∉ pool_keys (handle_credits p b).1 ∧
    ∀ v, pop_front (handle_credits p b).1 ≠ some (sn, v) := by
  have hmain : sn ∉ pool_keys (handle_credits p b).1 := by
    unfold handle_credits
    exact handle_records_not_mem b.records _ sn h2
      (foldl_remove_mem b.serial_numbers p sn h1)
  refine ⟨hmain, fun v hv => hmain ?_⟩
  unfold pop_front at hv
  cases hq : (handle_credits p b).1 with
  | nil => rw [hq] at hv; simp at hv
  | cons e rest =>
    rw [hq] at hv
    simp at hv
    simp [pool_keys, hv]

/-- C9 amended witness: block c9w_block spends s1 and creates only s2; with s1
already pooled, s1 is gone after the block and pop_front cannot return it. -/
theorem c9_amended_witness :
    "s1" ∉ pool_keys (handle_credits c9w_pool c9w_block).1 ∧
    ∀ v, pop_front (handle_credits c9w_pool c9w_block).1 ≠ some ("s1", v) :=
  c9_amended c9w_pool c9w_block "s1" (by decide) (by decide)

/-- C10: the source enqueues pass descriptors: move_to_next_remote performs no
pass-resolution loop (the source marks it TODO and never calls
MovRequest::pass), so when the node decides and the resolver answers with the
pass sentinel (validMoves == [64]), handle_vote enqueues that pass descriptor
as a MoveToNext execution request. -/
theorem c10_pass_enqueued :
    c10_pass.is_pass = true ∧
    (handle_vote (fun _ => [c10_pass]) c10_node c10_vote).2 =
      [Execution.MoveToNext c10_pass] := by decide
